import Mathlib

/-!
Shallow embedding of `bot.py` (Polymarket ETH hourly bot).

Numbers are modelled by `ℚ` (the source uses Python floats; all claims
concern control flow and exact comparisons on small decimal constants).
A raised Python exception is modelled by `Except.error ()`.
External collaborators (Binance candle feed, Polymarket client, order
submission) are modelled by their per-iteration outcomes, supplied as
inputs to each loop iteration.
-/

namespace Bot

/-- Trading parameters from the configuration block of `bot.py`
(`MAX_HOURLY_SPEND = 20.0`). -/
def MAX_HOURLY_SPEND : ℚ := 20

/-- `ORDER_SIZE = 5.0` (USDC per trade). -/
def ORDER_SIZE : ℚ := 5

/-- `EDGE_THRESHOLD = 10.0` (minimum edge in percentage points). -/
def EDGE_THRESHOLD : ℚ := 10

/-- The three numeric trading parameters, kept abstract so the theorems
quantify over them; `defaultConfig` instantiates them with the source's
literal values. -/
structure Config where
  orderSize : ℚ
  maxHourlySpend : ℚ
  edgeThreshold : ℚ

/-- The configuration actually present in `bot.py`. -/
def defaultConfig : Config :=
  { orderSize := ORDER_SIZE
    maxHourlySpend := MAX_HOURLY_SPEND
    edgeThreshold := EDGE_THRESHOLD }

/-- One OHLC candle as used by `get_eth_recent_change`: the code reads
`data[0][1]` (open of the earliest candle) and `data[-1][4]` (close of the
latest candle), so only those two fields are modelled. -/
structure Candle where
  openPrice : ℚ
  closePrice : ℚ
deriving DecidableEq

/-- `get_eth_recent_change` of `bot.py`, as a function of the candle list
returned by the Binance request.  `len(data) < 2` returns `0.0`; otherwise
`(last_close - open_1h_ago) / open_1h_ago * 100.0`, which raises
`ZeroDivisionError` in Python exactly when `open_1h_ago == 0`. -/
def get_eth_recent_change : List Candle → Except Unit ℚ
  | [] => Except.ok 0
  | [_] => Except.ok 0
  | c0 :: c1 :: rest =>
      let lastC := (c1 :: rest).getLast (List.cons_ne_nil c1 rest)
      if c0.openPrice = 0 then Except.error ()
      else Except.ok ((lastC.closePrice - c0.openPrice) / c0.openPrice * 100)

/-- `estimate_up_probability` of `bot.py`:
`base = 50.0 + change_pct * 2.0; est = max(5.0, min(95.0, base))`,
propagating any exception from `get_eth_recent_change`. -/
def estimate_up_probability (data : List Candle) : Except Unit ℚ :=
  match get_eth_recent_change data with
  | Except.error e => Except.error e
  | Except.ok change_pct => Except.ok (max 5 (min 95 (50 + change_pct * 2)))

/-- `get_polymarket_price` of `bot.py`, as a function of the value the
client's price lookup produced (`None` or a fraction): `None ↦ None`,
`p ↦ p * 100.0`. -/
def get_polymarket_price : Option ℚ → Option ℚ
  | none => none
  | some p => some (p * 100)

/-- `place_up_market_order` of `bot.py`, as a function of the requested
amount and of the venue interaction's outcome (`venue` bundles
`create_market_order` + `post_order`: either it raises, or it returns a
response whose content is modelled by a `Bool`).  `amount <= 0` returns
immediately (Python `return` with no value, modelled `Except.ok none`)
without any venue interaction; otherwise the venue's response is returned
as the order record. -/
def place_up_market_order (amount : ℚ) (venue : Except Unit Bool) :
    Except Unit (Option Bool) :=
  if amount ≤ 0 then Except.ok none
  else
    match venue with
    | Except.error e => Except.error e
    | Except.ok resp => Except.ok (some resp)

/-- The external outcomes one loop iteration of `run_one_hour_session` can
observe: the Binance candle request (raises or yields candles), the client
price lookup (raises or yields `None`/a fraction), and the venue order
interaction (raises or yields a response, consulted only when an order is
actually placed). -/
structure IterInput where
  candles : Except Unit (List Candle)
  rawPrice : Except Unit (Option ℚ)
  orderResp : Except Unit Bool

/-- The outcome of `est_prob = estimate_up_probability()` in an iteration:
a network failure of the candle request, or whatever the estimator does
with the received candles. -/
def estOutcome (inp : IterInput) : Except Unit ℚ :=
  match inp.candles with
  | Except.error e => Except.error e
  | Except.ok data => estimate_up_probability data

/-- What one iteration of the `while` loop body does to `spent`, plus two
observations used by the specification: whether `spent += ORDER_SIZE` ran
(`recorded`) and whether `place_up_market_order` was invoked
(`orderCalled`). -/
structure IterOut where
  spent : ℚ
  recorded : Bool
  orderCalled : Bool
deriving DecidableEq

/-- The body of the `try:` block of `run_one_hour_session` (lines 136-157),
including the `except` clause: the estimator runs, then the price lookup;
`None` skips the round; otherwise the edge/budget gate
`edge > EDGE_THRESHOLD and (spent + ORDER_SIZE) <= MAX_HOURLY_SPEND`
decides whether `place_up_market_order(client, ORDER_SIZE)` runs followed
by `spent += ORDER_SIZE`.  Any modelled exception is caught by the
`except Exception` handler, leaving `spent` unchanged. -/
def stepIter (cfg : Config) (spent : ℚ) (inp : IterInput) : IterOut :=
  match estOutcome inp with
  | Except.error _ => ⟨spent, false, false⟩
  | Except.ok est_prob =>
    match inp.rawPrice with
    | Except.error _ => ⟨spent, false, false⟩
    | Except.ok raw =>
      match get_polymarket_price raw with
      | none => ⟨spent, false, false⟩
      | some market_prob =>
        if est_prob - market_prob > cfg.edgeThreshold ∧
            spent + cfg.orderSize ≤ cfg.maxHourlySpend then
          match place_up_market_order cfg.orderSize inp.orderResp with
          | Except.error _ => ⟨spent, false, true⟩
          | Except.ok _ => ⟨spent + cfg.orderSize, true, true⟩
        else ⟨spent, false, false⟩

/-- Session bookkeeping: the running total `spent` plus the number of
iterations in which spend was recorded (the trade count, used to state the
implicit invariant `spent = trades * ORDER_SIZE`). -/
structure SessState where
  spent : ℚ
  trades : ℕ
deriving DecidableEq

/-- One full iteration acting on the session state. -/
def stepState (cfg : Config) (s : SessState) (inp : IterInput) : SessState :=
  ⟨(stepIter cfg s.spent inp).spent,
    if (stepIter cfg s.spent inp).recorded then s.trades + 1 else s.trades⟩

/-- One scheduled round of the loop: the wall-clock reading `now` that the
`while time.time() < end_ts` check observes, and the external outcomes the
iteration would see. -/
structure Round where
  now : ℚ
  input : IterInput

/-- The `while time.time() < end_ts` loop of `run_one_hour_session`, run
over a (finite) schedule of rounds: a round whose clock reading is below
`endTs` executes one iteration and continues; the first round at or past
`endTs` exits the loop. -/
def runLoop (cfg : Config) (endTs : ℚ) (s : SessState) :
    List Round → SessState
  | [] => s
  | r :: rs =>
      if r.now < endTs then runLoop cfg endTs (stepState cfg s r.input) rs
      else s

/-- `run_one_hour_session` of `bot.py`: `end_ts = start_ts + 60 * 60`
computed once at the start, `spent = 0.0`, then the loop; the returned
state's `spent` is the summary total printed at the end. -/
def run_one_hour_session (cfg : Config) (start_ts : ℚ)
    (rounds : List Round) : SessState :=
  let end_ts := start_ts + 60 * 60
  runLoop cfg end_ts ⟨0, 0⟩ rounds

/-- The sequence of session states reached at each loop-condition check,
starting from `s` (so the head is the initial state and each later entry
is the state after one more executed iteration). -/
def stateTrace (cfg : Config) (endTs : ℚ) (s : SessState) :
    List Round → List SessState
  | [] => [s]
  | r :: rs =>
      if r.now < endTs then s :: stateTrace cfg endTs (stepState cfg s r.input) rs
      else [s]

/-- The cumulative-spend values observed over a whole session run of
`run_one_hour_session` (initial `0.0` included). -/
def sessionSpentTrace (cfg : Config) (start_ts : ℚ)
    (rounds : List Round) : List ℚ :=
  (stateTrace cfg (start_ts + 60 * 60) ⟨0, 0⟩ rounds).map SessState.spent

/-- Concrete candle series of end-to-end scenario A of the specification:
earliest open `1000`, latest close `1100`. -/
def demoCandles : List Candle := [⟨1000, 1000⟩, ⟨1000, 1100⟩]

/-- Concrete iteration outcomes for scenario A: candles as above, venue
fraction `0.55` (so market quote `55`), order accepted. -/
def demoTradeInput : IterInput :=
  ⟨Except.ok demoCandles, Except.ok (some (11 / 20)), Except.ok true⟩

/-- Scenario A with a rejected order response (`false`): used to check
that the response content is irrelevant to the bookkeeping. -/
def demoRejectInput : IterInput :=
  ⟨Except.ok demoCandles, Except.ok (some (11 / 20)), Except.ok false⟩

/-- An iteration in which the candle request raises. -/
def demoFaultInput : IterInput :=
  ⟨Except.error (), Except.ok (some (11 / 20)), Except.ok true⟩

/-- Scenario A where the venue order interaction raises. -/
def demoOrderFaultInput : IterInput :=
  ⟨Except.ok demoCandles, Except.ok (some (11 / 20)), Except.error ()⟩

/-- An iteration in which the price lookup yields no value. -/
def demoNoQuoteInput : IterInput :=
  ⟨Except.ok demoCandles, Except.ok none, Except.ok true⟩

/-- A one-round schedule performing scenario A at time `0`. -/
def demoRounds : List Round := [⟨0, demoTradeInput⟩]

/-- A round in which a Python exception is actually raised inside the
`try:` block: the candle request or the estimator raises, the price lookup
raises, or the order placement call raises (which for a positive order
size means the venue interaction raised). -/
def iterFaulty (cfg : Config) (inp : IterInput) : Prop :=
  estOutcome inp = Except.error () ∨
    inp.rawPrice = Except.error () ∨
    place_up_market_order cfg.orderSize inp.orderResp = Except.error ()

/-! ## Helper lemmas -/

/-- `place_up_market_order` never raises when the venue interaction
returns a response. -/
lemma place_ok (amount : ℚ) (r : Bool) :
    place_up_market_order amount (Except.ok r) =
      Except.ok (if amount ≤ 0 then none else some r) := by
  unfold place_up_market_order
  by_cases h : amount ≤ 0 <;> simp [h]

/-- Exhaustive description of one iteration body: either it is a no-trade
round (state untouched, no order call), or the order call raised (order
attempted, state untouched), or a trade happened (spend recorded, and the
budget gate had passed). -/
lemma stepIter_main (cfg : Config) (spent : ℚ) (inp : IterInput) :
    stepIter cfg spent inp = ⟨spent, false, false⟩ ∨
      (stepIter cfg spent inp = ⟨spent, false, true⟩ ∧
        place_up_market_order cfg.orderSize inp.orderResp = Except.error ()) ∨
      (stepIter cfg spent inp = ⟨spent + cfg.orderSize, true, true⟩ ∧
        spent + cfg.orderSize ≤ cfg.maxHourlySpend ∧
        ∃ v, place_up_market_order cfg.orderSize inp.orderResp = Except.ok v) := by
  unfold stepIter
  repeat' split
  all_goals first
    | exact Or.inl rfl
    | (rename_i hg x e hpl; exact Or.inr (Or.inl ⟨rfl, by rw [hpl]⟩))
    | (rename_i hg x v hpl; exact Or.inr (Or.inr ⟨rfl, hg.2, v, hpl⟩))

/-- One iteration either leaves the session state alone or records one
trade of `orderSize`, and in the latter case the budget gate had passed. -/
lemma stepState_main (cfg : Config) (s : SessState) (inp : IterInput) :
    stepState cfg s inp = s ∨
      (stepState cfg s inp = ⟨s.spent + cfg.orderSize, s.trades + 1⟩ ∧
        s.spent + cfg.orderSize ≤ cfg.maxHourlySpend) := by
  rcases stepIter_main cfg s.spent inp with h | ⟨h, _⟩ | ⟨h, hle, _⟩
  · left; simp only [stepState, h]; rfl
  · left; simp only [stepState, h]; rfl
  · right; exact ⟨by simp only [stepState, h]; rfl, hle⟩

lemma runLoop_cons_lt (cfg : Config) (endTs : ℚ) (s : SessState)
    (r : Round) (rs : List Round) (h : r.now < endTs) :
    runLoop cfg endTs s (r :: rs) =
      runLoop cfg endTs (stepState cfg s r.input) rs := by
  simp only [runLoop, if_pos h]

lemma runLoop_cons_ge (cfg : Config) (endTs : ℚ) (s : SessState)
    (r : Round) (rs : List Round) (h : ¬ r.now < endTs) :
    runLoop cfg endTs s (r :: rs) = s := by
  simp only [runLoop, if_neg h]

/-- Any property preserved by a single iteration holds for the final
state of the loop. -/
lemma runLoop_inv {P : SessState → Prop} (cfg : Config) (endTs : ℚ)
    (hstep : ∀ s inp, P s → P (stepState cfg s inp)) :
    ∀ (rounds : List Round) (s : SessState), P s →
      P (runLoop cfg endTs s rounds) := by
  intro rounds
  induction rounds with
  | nil => intro s hs; exact hs
  | cons r rs ih =>
    intro s hs
    by_cases h : r.now < endTs
    · rw [runLoop_cons_lt cfg endTs s r rs h]
      exact ih _ (hstep s r.input hs)
    · rw [runLoop_cons_ge cfg endTs s r rs h]
      exact hs

/-- Any property preserved by a single iteration holds at every
intermediate state of the session. -/
lemma stateTrace_all {P : SessState → Prop} (cfg : Config) (endTs : ℚ)
    (hstep : ∀ s inp, P s → P (stepState cfg s inp)) :
    ∀ (rounds : List Round) (s : SessState), P s →
      ∀ st ∈ stateTrace cfg endTs s rounds, P st := by
  intro rounds
  induction rounds with
  | nil =>
    intro s hs st hst
    simp only [stateTrace, List.mem_singleton] at hst
    exact hst ▸ hs
  | cons r rs ih =>
    intro s hs st hst
    by_cases h : r.now < endTs
    · simp only [stateTrace, if_pos h, List.mem_cons] at hst
      rcases hst with rfl | hst
      · exact hs
      · exact ih _ (hstep s r.input hs) st hst
    · simp only [stateTrace, if_neg h, List.mem_singleton] at hst
      exact hst ▸ hs

lemma stateTrace_head (cfg : Config) (endTs : ℚ) (s : SessState)
    (rounds : List Round) :
    (stateTrace cfg endTs s rounds).head? = some s := by
  cases rounds with
  | nil => rfl
  | cons r rs =>
    by_cases h : r.now < endTs
    · simp [stateTrace, h]
    · simp [stateTrace, h]

/-- With a non-negative order size, `spent` never decreases across one
iteration. -/
lemma stepState_spent_mono (cfg : Config) (s : SessState) (inp : IterInput)
    (hos : 0 ≤ cfg.orderSize) :
    s.spent ≤ (stepState cfg s inp).spent := by
  rcases stepState_main cfg s inp with h | ⟨h, _⟩
  · rw [h]
  · rw [h]; simpa using hos

/-- The intermediate spend values form a non-decreasing chain. -/
lemma stateTrace_chain (cfg : Config) (endTs : ℚ) (hos : 0 ≤ cfg.orderSize) :
    ∀ (rounds : List Round) (s : SessState),
      List.Chain' (fun a b => SessState.spent a ≤ SessState.spent b)
        (stateTrace cfg endTs s rounds) := by
  intro rounds
  induction rounds with
  | nil => intro s; simp [stateTrace]
  | cons r rs ih =>
    intro s
    by_cases h : r.now < endTs
    · simp only [stateTrace, if_pos h]
      refine List.chain'_cons'.mpr ⟨?_, ih _⟩
      intro b hb
      rw [stateTrace_head] at hb
      cases hb
      exact stepState_spent_mono cfg s r.input hos
    · simp only [stateTrace, if_neg h]
      simp

/-- One iteration preserves the budget invariant `spent ≤ ceiling`. -/
lemma stepState_budget (cfg : Config) (s : SessState) (inp : IterInput)
    (hs : s.spent ≤ cfg.maxHourlySpend) :
    (stepState cfg s inp).spent ≤ cfg.maxHourlySpend := by
  rcases stepState_main cfg s inp with h | ⟨h, hle⟩
  · rw [h]; exact hs
  · rw [h]; exact hle

/-- One iteration preserves the accounting identity
`spent = trades * orderSize`. -/
lemma stepState_accounted (cfg : Config) (s : SessState) (inp : IterInput)
    (hs : s.spent = s.trades * cfg.orderSize) :
    (stepState cfg s inp).spent =
      (stepState cfg s inp).trades * cfg.orderSize := by
  rcases stepState_main cfg s inp with h | ⟨h, _⟩
  · rw [h]; exact hs
  · rw [h]
    show s.spent + cfg.orderSize = ((s.trades + 1 : ℕ) : ℚ) * cfg.orderSize
    push_cast
    rw [hs]; ring

/-- An iteration whose signal estimation raised is a no-trade round. -/
lemma stepIter_est_err (cfg : Config) (spent : ℚ) (inp : IterInput)
    (h : estOutcome inp = Except.error ()) :
    stepIter cfg spent inp = ⟨spent, false, false⟩ := by
  unfold stepIter
  rw [h]

/-- An iteration whose price lookup raised is a no-trade round. -/
lemma stepIter_raw_err (cfg : Config) (spent : ℚ) (inp : IterInput)
    (h : inp.rawPrice = Except.error ()) :
    stepIter cfg spent inp = ⟨spent, false, false⟩ := by
  unfold stepIter
  cases hest : estOutcome inp with
  | error e => rfl
  | ok est_prob => rw [h]

/-- A faulty iteration (one of the three calls raised) neither records
spend nor changes `spent`. -/
lemma stepIter_faulty (cfg : Config) (spent : ℚ) (inp : IterInput)
    (h : iterFaulty cfg inp) :
    (stepIter cfg spent inp).spent = spent ∧
      (stepIter cfg spent inp).recorded = false := by
  rcases h with hf | hf | hf
  · rw [stepIter_est_err cfg spent inp hf]; exact ⟨rfl, rfl⟩
  · rw [stepIter_raw_err cfg spent inp hf]; exact ⟨rfl, rfl⟩
  · rcases stepIter_main cfg spent inp with hm | ⟨hm, _⟩ | ⟨hm, _, v, hpl⟩
    · rw [hm]; exact ⟨rfl, rfl⟩
    · rw [hm]; exact ⟨rfl, rfl⟩
    · rw [hf] at hpl
      cases hpl

/-- A faulty iteration leaves the whole session state unchanged. -/
lemma stepState_faulty (cfg : Config) (s : SessState) (inp : IterInput)
    (h : iterFaulty cfg inp) :
    stepState cfg s inp = s := by
  obtain ⟨h1, h2⟩ := stepIter_faulty cfg s.spent inp h
  simp only [stepState, h1, h2]
  rfl

/-- A round whose price lookup returned `None` is a no-trade round. -/
lemma stepIter_unavailable (cfg : Config) (spent : ℚ) (inp : IterInput)
    (h : inp.rawPrice = Except.ok none) :
    stepIter cfg spent inp = ⟨spent, false, false⟩ := by
  unfold stepIter
  cases hest : estOutcome inp with
  | error e => rfl
  | ok est_prob => rw [h]; rfl

/-! ## Claims -/

/-- C1: Budget invariant — for every session run (any start time, any
schedule of iteration outcomes), every cumulative-spend value observed at
any point of the run, which starts from `spent = 0`, is at most the spend
ceiling `maxHourlySpend`, given non-negative order size and ceiling. -/
theorem c1_budget_invariant (cfg : Config) (start_ts : ℚ)
    (rounds : List Round) (hos : 0 ≤ cfg.orderSize)
    (hmax : 0 ≤ cfg.maxHourlySpend) :
    ∀ x ∈ sessionSpentTrace cfg start_ts rounds, x ≤ cfg.maxHourlySpend := by
  intro x hx
  simp only [sessionSpentTrace] at hx
  rcases List.mem_map.mp hx with ⟨st, hst, rfl⟩
  exact stateTrace_all cfg (start_ts + 60 * 60)
    (fun s inp h => stepState_budget cfg s inp h) rounds ⟨0, 0⟩ hmax st hst

/-- Witness for C1: in the concrete scenario-A session the observed spend
value `5` is indeed below the ceiling. -/
theorem c1_budget_invariant_witness :
    (5 : ℚ) ∈ sessionSpentTrace defaultConfig 0 demoRounds ∧
      (5 : ℚ) ≤ defaultConfig.maxHourlySpend := by
  have hm : (5 : ℚ) ∈ sessionSpentTrace defaultConfig 0 demoRounds := by
    norm_num [sessionSpentTrace, stateTrace, demoRounds, stepState, stepIter,
      estOutcome, demoTradeInput, demoCandles, estimate_up_probability,
      get_eth_recent_change, get_polymarket_price, place_up_market_order,
      defaultConfig, ORDER_SIZE, MAX_HOURLY_SPEND, EDGE_THRESHOLD,
      min_def, max_def]
  exact ⟨hm, c1_budget_invariant defaultConfig 0 demoRounds
    (by norm_num [defaultConfig, ORDER_SIZE])
    (by norm_num [defaultConfig, MAX_HOURLY_SPEND]) 5 hm⟩

/-- C2: Trade decision rule — in an iteration where the estimator
returned and a market quote is available, `place_up_market_order` is
invoked iff `edge > edgeThreshold` and the remaining budget admits one
more order (`spent + orderSize ≤ maxHourlySpend`, equivalently
`orderSize ≤ maxHourlySpend - spent`). -/
theorem c2_trade_decision (cfg : Config) (spent : ℚ) (inp : IterInput)
    (est_prob market_prob : ℚ) (raw : Option ℚ)
    (hos : 0 < cfg.orderSize)
    (hest : estOutcome inp = Except.ok est_prob)
    (hraw : inp.rawPrice = Except.ok raw)
    (hmkt : get_polymarket_price raw = some market_prob) :
    ((stepIter cfg spent inp).orderCalled = true ↔
      (est_prob - market_prob > cfg.edgeThreshold ∧
        spent + cfg.orderSize ≤ cfg.maxHourlySpend)) ∧
      (spent + cfg.orderSize ≤ cfg.maxHourlySpend ↔
        cfg.orderSize ≤ cfg.maxHourlySpend - spent) := by
  constructor
  · simp only [stepIter, hest, hraw, hmkt]
    by_cases hg : est_prob - market_prob > cfg.edgeThreshold ∧
        spent + cfg.orderSize ≤ cfg.maxHourlySpend
    · rw [if_pos hg]
      cases hpl : place_up_market_order cfg.orderSize inp.orderResp <;>
        simp [hg]
    · rw [if_neg hg]
      simp [hg]
  · constructor
    · intro h; linarith
    · intro h; linarith

/-- Witness for C2 at scenario A (estimate `70`, market `55`, empty
budget): the iff instantiates and the trade fires. -/
theorem c2_trade_decision_witness :
    ((stepIter defaultConfig 0 demoTradeInput).orderCalled = true ↔
      ((70 : ℚ) - 55 > defaultConfig.edgeThreshold ∧
        (0 : ℚ) + defaultConfig.orderSize ≤ defaultConfig.maxHourlySpend)) ∧
      ((0 : ℚ) + defaultConfig.orderSize ≤ defaultConfig.maxHourlySpend ↔
        defaultConfig.orderSize ≤ defaultConfig.maxHourlySpend - 0) :=
  c2_trade_decision defaultConfig 0 demoTradeInput 70 55 (some (11 / 20))
    (by norm_num [defaultConfig, ORDER_SIZE])
    (by norm_num [estOutcome, demoTradeInput, demoCandles,
      estimate_up_probability, get_eth_recent_change, min_def, max_def])
    rfl
    (by norm_num [get_polymarket_price])

/-- C3: Failure isolation — a round scheduled before the end time in
which any of the three external calls raises leaves the session state
unchanged and the loop continues exactly as it would on the remaining
rounds; a failing iteration never terminates the session. -/
theorem c3_failure_isolation (cfg : Config) (endTs : ℚ) (s : SessState)
    (r : Round) (rs : List Round) (hnow : r.now < endTs)
    (hfault : iterFaulty cfg r.input) :
    stepState cfg s r.input = s ∧
      runLoop cfg endTs s (r :: rs) = runLoop cfg endTs s rs := by
  have h := stepState_faulty cfg s r.input hfault
  exact ⟨h, by rw [runLoop_cons_lt cfg endTs s r rs hnow, h]⟩

/-- Witness for C3: a session whose first round's candle request raises
proceeds exactly like the session that starts at its second round. -/
theorem c3_failure_isolation_witness :
    stepState defaultConfig ⟨0, 0⟩ demoFaultInput = (⟨0, 0⟩ : SessState) ∧
      runLoop defaultConfig 3600 ⟨0, 0⟩
          [⟨0, demoFaultInput⟩, ⟨20, demoTradeInput⟩] =
        runLoop defaultConfig 3600 ⟨0, 0⟩ [⟨20, demoTradeInput⟩] :=
  c3_failure_isolation defaultConfig 3600 ⟨0, 0⟩ ⟨0, demoFaultInput⟩
    [⟨20, demoTradeInput⟩] (by norm_num) (Or.inl rfl)

/-- C4: Spend bookkeeping — in a tradable iteration (estimator and quote
succeeded, gate passed): whenever the order call returns a response,
whatever its content (acceptance `true` or rejection `false`), spend is
recorded; if the order call raises, `spent` is unchanged; and in general
spend is recorded exactly when `spent` grows by `orderSize`, and only
after the order-placement call returned. -/
theorem c4_spend_bookkeeping (cfg : Config) (spent : ℚ) (inp : IterInput)
    (est_prob market_prob : ℚ) (raw : Option ℚ)
    (hest : estOutcome inp = Except.ok est_prob)
    (hraw : inp.rawPrice = Except.ok raw)
    (hmkt : get_polymarket_price raw = some market_prob)
    (hguard : est_prob - market_prob > cfg.edgeThreshold ∧
      spent + cfg.orderSize ≤ cfg.maxHourlySpend) :
    (∀ r : Bool, inp.orderResp = Except.ok r →
        stepIter cfg spent inp = ⟨spent + cfg.orderSize, true, true⟩) ∧
      (0 < cfg.orderSize → inp.orderResp = Except.error () →
        stepIter cfg spent inp = ⟨spent, false, true⟩) ∧
      ((stepIter cfg spent inp).recorded = true →
        (stepIter cfg spent inp).spent = spent + cfg.orderSize ∧
          ∃ v, place_up_market_order cfg.orderSize inp.orderResp =
            Except.ok v) ∧
      ((stepIter cfg spent inp).recorded = false →
        (stepIter cfg spent inp).spent = spent) := by
  refine ⟨?_, ?_, ?_, ?_⟩
  · intro r hr
    simp only [stepIter, hest, hraw, hmkt]
    rw [if_pos hguard, hr, place_ok]
  · intro hos he
    have hpl : place_up_market_order cfg.orderSize inp.orderResp =
        Except.error () := by
      unfold place_up_market_order
      rw [if_neg (not_le.mpr hos), he]
    simp only [stepIter, hest, hraw, hmkt]
    rw [if_pos hguard, hpl]
  · intro h
    rcases stepIter_main cfg spent inp with hm | ⟨hm, _⟩ | ⟨hm, _, v, hpl⟩
    · rw [hm] at h; simp at h
    · rw [hm] at h; simp at h
    · rw [hm]; exact ⟨rfl, v, hpl⟩
  · intro h
    rcases stepIter_main cfg spent inp with hm | ⟨hm, _⟩ | ⟨hm, _, _, _⟩
    · rw [hm]
    · rw [hm]
    · rw [hm] at h; simp at h

/-- Witness for C4: a rejected response (`false`) still consumes budget,
and a raising order call leaves `spent` unchanged. -/
theorem c4_spend_bookkeeping_witness :
    stepIter defaultConfig 0 demoRejectInput =
        ⟨0 + defaultConfig.orderSize, true, true⟩ ∧
      stepIter defaultConfig 0 demoOrderFaultInput = ⟨0, false, true⟩ :=
  ⟨(c4_spend_bookkeeping defaultConfig 0 demoRejectInput 70 55 (some (11 / 20))
      (by norm_num [estOutcome, demoRejectInput, demoCandles,
        estimate_up_probability, get_eth_recent_change, min_def, max_def])
      rfl (by norm_num [get_polymarket_price])
      (by norm_num [defaultConfig, ORDER_SIZE, MAX_HOURLY_SPEND,
        EDGE_THRESHOLD])).1 false rfl,
   (c4_spend_bookkeeping defaultConfig 0 demoOrderFaultInput 70 55
      (some (11 / 20))
      (by norm_num [estOutcome, demoOrderFaultInput, demoCandles,
        estimate_up_probability, get_eth_recent_change, min_def, max_def])
      rfl (by norm_num [get_polymarket_price])
      (by norm_num [defaultConfig, ORDER_SIZE, MAX_HOURLY_SPEND,
        EDGE_THRESHOLD])).2.1
      (by norm_num [defaultConfig, ORDER_SIZE]) rfl⟩

/-- C5: Session termination and summary — the session computes its end
time once as `start + 60 * 60` seconds and runs the loop from `spent = 0`;
a round observed at or past the end time terminates the loop immediately,
a round observed before it executes one more iteration; and the reported
summary `spent` equals the number of executed trades times the order
size. -/
theorem c5_session_termination_and_summary (cfg : Config) (start_ts : ℚ)
    (rounds : List Round) :
    run_one_hour_session cfg start_ts rounds =
        runLoop cfg (start_ts + 60 * 60) ⟨0, 0⟩ rounds ∧
      (∀ (r : Round) (rs : List Round) (s : SessState),
        start_ts + 60 * 60 ≤ r.now →
        runLoop cfg (start_ts + 60 * 60) s (r :: rs) = s) ∧
      (∀ (r : Round) (rs : List Round) (s : SessState),
        r.now < start_ts + 60 * 60 →
        runLoop cfg (start_ts + 60 * 60) s (r :: rs) =
          runLoop cfg (start_ts + 60 * 60) (stepState cfg s r.input) rs) ∧
      (run_one_hour_session cfg start_ts rounds).spent =
        ((run_one_hour_session cfg start_ts rounds).trades : ℚ) *
          cfg.orderSize := by
  refine ⟨rfl, ?_, ?_, ?_⟩
  · intro r rs s h
    exact runLoop_cons_ge cfg _ s r rs (not_lt.mpr h)
  · intro r rs s h
    exact runLoop_cons_lt cfg _ s r rs h
  · exact runLoop_inv cfg (start_ts + 60 * 60)
      (fun s inp h => stepState_accounted cfg s inp h) rounds ⟨0, 0⟩
      (by norm_num)

/-- Witness for C5: a round at exactly the end time exits the loop with
the state unchanged, and a round before the end time runs an iteration. -/
theorem c5_session_termination_and_summary_witness :
    runLoop defaultConfig (0 + 60 * 60) ⟨0, 0⟩ [⟨3600, demoTradeInput⟩] =
        (⟨0, 0⟩ : SessState) ∧
      runLoop defaultConfig (0 + 60 * 60) ⟨0, 0⟩ [⟨0, demoTradeInput⟩] =
        runLoop defaultConfig (0 + 60 * 60)
          (stepState defaultConfig ⟨0, 0⟩ demoTradeInput) [] :=
  ⟨(c5_session_termination_and_summary defaultConfig 0 []).2.1
      ⟨3600, demoTradeInput⟩ [] ⟨0, 0⟩ (by norm_num),
   (c5_session_termination_and_summary defaultConfig 0 []).2.2.1
      ⟨0, demoTradeInput⟩ [] ⟨0, 0⟩ (by norm_num)⟩

/-- C7: Market quote reader — a lookup yielding no value maps to the
distinguished `none` result (the embedding is a total function, so no
exception is possible); a fractional price `p ∈ [0,1]` maps to `p * 100`,
a probability in `[0,100]`; and a round with an unavailable quote skips
trading, leaves the session state unchanged, and the session continues
with the remaining rounds. -/
theorem c7_quote_reader (cfg : Config) (endTs : ℚ) :
    get_polymarket_price none = none ∧
      (∀ p : ℚ, 0 ≤ p → p ≤ 1 →
        get_polymarket_price (some p) = some (p * 100) ∧
          0 ≤ p * 100 ∧ p * 100 ≤ 100) ∧
      (∀ (s : SessState) (r : Round) (rs : List Round),
        r.input.rawPrice = Except.ok none → r.now < endTs →
        stepState cfg s r.input = s ∧
          runLoop cfg endTs s (r :: rs) = runLoop cfg endTs s rs) := by
  refine ⟨rfl, ?_, ?_⟩
  · intro p h0 h1
    exact ⟨rfl, mul_nonneg h0 (by norm_num), by linarith⟩
  · intro s r rs hq hnow
    have hs : stepState cfg s r.input = s := by
      simp only [stepState, stepIter_unavailable cfg s.spent r.input hq]
      rfl
    exact ⟨hs, by rw [runLoop_cons_lt cfg endTs s r rs hnow, hs]⟩

/-- Witness for C7: the fraction `11/20` maps to the in-range quote `55`,
and a concrete unavailable round is a no-op that continues the session. -/
theorem c7_quote_reader_witness :
    (get_polymarket_price (some (11 / 20)) = some ((11 / 20 : ℚ) * 100) ∧
        (0 : ℚ) ≤ (11 / 20 : ℚ) * 100 ∧ (11 / 20 : ℚ) * 100 ≤ 100) ∧
      stepState defaultConfig ⟨0, 0⟩ demoNoQuoteInput = (⟨0, 0⟩ : SessState) ∧
      runLoop defaultConfig 3600 ⟨0, 0⟩ [⟨0, demoNoQuoteInput⟩] =
        runLoop defaultConfig 3600 ⟨0, 0⟩ [] :=
  ⟨(c7_quote_reader defaultConfig 3600).2.1 (11 / 20) (by norm_num)
      (by norm_num),
   (c7_quote_reader defaultConfig 3600).2.2 ⟨0, 0⟩ ⟨0, demoNoQuoteInput⟩ []
      rfl (by norm_num)⟩

/-- C8: Order executor no-op guard — for every amount at most `0`,
`place_up_market_order` returns immediately with no order record
(`Except.ok none`, the Python bare `return`), for every venue outcome
whatsoever (so no order is constructed, signed or submitted, even though
the documented contract promises an order record). -/
theorem c8_order_noop (amount : ℚ) (h : amount ≤ 0) :
    ∀ venue : Except Unit Bool,
      place_up_market_order amount venue = Except.ok none := by
  intro venue
  unfold place_up_market_order
  rw [if_pos h]

/-- Witness for C8 at `amount = 0` and `amount = -3`, with a raising and
a responding venue respectively. -/
theorem c8_order_noop_witness :
    place_up_market_order 0 (Except.error ()) = Except.ok none ∧
      place_up_market_order (-3) (Except.ok true) = Except.ok none :=
  ⟨c8_order_noop 0 (by norm_num) (Except.error ()),
   c8_order_noop (-3) (by norm_num) (Except.ok true)⟩

/-- C6 counterexample: the claim quantifies over every series with at
least 2 observations, but on `[⟨0, 5⟩, ⟨1, 7⟩]` (earliest open `0`) the
code raises `ZeroDivisionError` instead of returning the clamped value
(which, reading the claim's percent-change formula with total rational
division, would be `clamp(50 + 2 * 0) = 50`). -/
theorem c6_estimator_counterexample :
    estimate_up_probability [⟨0, 5⟩, ⟨1, 7⟩] = Except.error () ∧
      (Except.error () : Except Unit ℚ) ≠ Except.ok 50 := by
  constructor
  · norm_num [estimate_up_probability, get_eth_recent_change]
  · intro h
    exact Except.noConfusion h

/-- C6 (amended): for every candle series with at least 2 observations
whose earliest open is nonzero, the estimate is exactly
`clamp(50 + 2 * percentChange, 5, 95)` with
`percentChange = (latest close - earliest open) / earliest open * 100`;
for fewer than 2 observations it is exactly `50`; and every returned
estimate lies in `[5, 95]`. -/
theorem c6_estimator_amended :
    (∀ (c0 c1 : Candle) (rest : List Candle), c0.openPrice ≠ 0 →
        estimate_up_probability (c0 :: c1 :: rest) =
          Except.ok (max 5 (min 95 (50 +
            ((((c1 :: rest).getLast (List.cons_ne_nil c1 rest)).closePrice -
                c0.openPrice) / c0.openPrice * 100) * 2)))) ∧
      (∀ data : List Candle, data.length < 2 →
        estimate_up_probability data = Except.ok 50) ∧
      (∀ (data : List Candle) (v : ℚ),
        estimate_up_probability data = Except.ok v → 5 ≤ v ∧ v ≤ 95) := by
  refine ⟨?_, ?_, ?_⟩
  · intro c0 c1 rest h
    simp only [estimate_up_probability, get_eth_recent_change, if_neg h]
  · intro data h
    rcases data with _ | ⟨c, _ | ⟨d, rest⟩⟩
    · norm_num [estimate_up_probability, get_eth_recent_change, min_def,
        max_def]
    · norm_num [estimate_up_probability, get_eth_recent_change, min_def,
        max_def]
    · simp only [List.length_cons] at h
      omega
  · intro data v hv
    unfold estimate_up_probability at hv
    cases hge : get_eth_recent_change data with
    | error e => rw [hge] at hv; simp at hv
    | ok c =>
      rw [hge] at hv
      simp only [Except.ok.injEq] at hv
      subst hv
      exact ⟨le_max_left _ _, max_le (by norm_num) (min_le_left _ _)⟩

/-- Witness for C6 (amended) at scenario A: earliest open `1000`, latest
close `1100`, percent change `10`, estimate exactly `70`. -/
theorem c6_estimator_amended_witness :
    estimate_up_probability [⟨1000, 1000⟩, ⟨1000, 1100⟩] = Except.ok 70 := by
  rw [c6_estimator_amended.1 ⟨1000, 1000⟩ ⟨1000, 1100⟩ [] (by norm_num)]
  norm_num [List.getLast_singleton, min_def, max_def]

/-- C9: Implicit invariant — with a positive order size and non-negative
ceiling, the observed spend values are non-decreasing over the session,
at every point `spent = trades * orderSize` for the natural number
`trades` of executed trades, and the number of trades in a session is
bounded by `⌊maxHourlySpend / orderSize⌋`. -/
theorem c9_monotone_accounting (cfg : Config) (start_ts : ℚ)
    (rounds : List Round) (hos : 0 < cfg.orderSize)
    (hmax : 0 ≤ cfg.maxHourlySpend) :
    List.Chain' (· ≤ ·) (sessionSpentTrace cfg start_ts rounds) ∧
      (∀ st ∈ stateTrace cfg (start_ts + 60 * 60) (⟨0, 0⟩ : SessState) rounds,
        st.spent = (st.trades : ℚ) * cfg.orderSize) ∧
      ((run_one_hour_session cfg start_ts rounds).trades : ℤ) ≤
        ⌊cfg.maxHourlySpend / cfg.orderSize⌋ := by
  refine ⟨?_, ?_, ?_⟩
  · simp only [sessionSpentTrace]
    exact (List.chain'_map _).mpr
      (stateTrace_chain cfg (start_ts + 60 * 60) hos.le rounds ⟨0, 0⟩)
  · exact stateTrace_all cfg (start_ts + 60 * 60)
      (fun s inp h => stepState_accounted cfg s inp h) rounds ⟨0, 0⟩
      (by norm_num)
  · have hacc : (run_one_hour_session cfg start_ts rounds).spent =
        ((run_one_hour_session cfg start_ts rounds).trades : ℚ) *
          cfg.orderSize :=
      runLoop_inv cfg (start_ts + 60 * 60)
        (fun s inp h => stepState_accounted cfg s inp h) rounds ⟨0, 0⟩
        (by norm_num)
    have hbud : (run_one_hour_session cfg start_ts rounds).spent ≤
        cfg.maxHourlySpend :=
      runLoop_inv cfg (start_ts + 60 * 60)
        (fun s inp h => stepState_budget cfg s inp h) rounds ⟨0, 0⟩ hmax
    rw [Int.le_floor, le_div_iff₀ hos]
    push_cast
    rw [hacc] at hbud
    exact hbud

/-- Witness for C9 at the concrete scenario-A session: the spend trace is
a chain and the single executed trade respects the
`⌊ceiling / orderSize⌋ = 4` bound. -/
theorem c9_monotone_accounting_witness :
    List.Chain' (· ≤ ·) (sessionSpentTrace defaultConfig 0 demoRounds) ∧
      ((run_one_hour_session defaultConfig 0 demoRounds).trades : ℤ) ≤
        ⌊defaultConfig.maxHourlySpend / defaultConfig.orderSize⌋ :=
  ⟨(c9_monotone_accounting defaultConfig 0 demoRounds
      (by norm_num [defaultConfig, ORDER_SIZE])
      (by norm_num [defaultConfig, MAX_HOURLY_SPEND])).1,
   (c9_monotone_accounting defaultConfig 0 demoRounds
      (by norm_num [defaultConfig, ORDER_SIZE])
      (by norm_num [defaultConfig, MAX_HOURLY_SPEND])).2.2⟩

/-- C10: Implicit safety precondition of the estimator — for every candle
series with at least 2 observations and nonzero earliest open, the
percent-change computation is total and returns its value; while at a
concrete series with zero earliest open (not excluded by the spec's
contract) both the percent-change computation and the estimator raise
instead of returning a value in `[5, 95]`. -/
theorem c10_estimator_totality :
    (∀ (c0 c1 : Candle) (rest : List Candle), c0.openPrice ≠ 0 →
        get_eth_recent_change (c0 :: c1 :: rest) =
          Except.ok
            ((((c1 :: rest).getLast (List.cons_ne_nil c1 rest)).closePrice -
              c0.openPrice) / c0.openPrice * 100)) ∧
      get_eth_recent_change [⟨0, 5⟩, ⟨1, 7⟩] = Except.error () ∧
      estimate_up_probability [⟨0, 5⟩, ⟨1, 7⟩] = Except.error () := by
  refine ⟨?_, ?_, ?_⟩
  · intro c0 c1 rest h
    simp only [get_eth_recent_change, if_neg h]
  · norm_num [get_eth_recent_change]
  · norm_num [estimate_up_probability, get_eth_recent_change]

/-- Witness for C10 at scenario A: nonzero earliest open, the percent
change is returned and equals `10`. -/
theorem c10_estimator_totality_witness :
    get_eth_recent_change [⟨1000, 1000⟩, ⟨1000, 1100⟩] = Except.ok 10 := by
  rw [c10_estimator_totality.1 ⟨1000, 1000⟩ ⟨1000, 1100⟩ [] (by norm_num)]
  norm_num [List.getLast_singleton]

end Bot
